import Mathlib

/-!
Shallow embedding of `scripts/generate_extensions_matrix.py`.

The script fetches the NWB extensions catalog (a paginated GitHub listing
endpoint plus one raw metadata file per repository) and produces a JSON
matrix for CI.  The embedding models the external world as oracles: an
optional environment token, a function from page numbers to page
responses, and a function from raw-content URLs to metadata responses.
Python exceptions are modelled with `Except`; the unbounded `while True`
pagination loop takes explicit fuel, with a `diverged` outcome when the
fuel runs out.  Diagnostic prints to standard error are collected in
`List String` logs, and `main` additionally records what is written to
standard output and to the `GITHUB_OUTPUT` file.
-/

/-- HTTP headers, as the association list handed to `requests.get`. -/
abbrev Headers := List (String × String)

/-- A repository summary from the listing endpoint: the fields the script
reads (`name`, `html_url`, `default_branch`).  `default_branch` is optional
because the script accesses it with `repo.get("default_branch", "main")`. -/
structure RepoEntry where
  name : String
  html_url : String
  default_branch : Option String
  deriving Repr, DecidableEq

/-- A normalized extension record, as built by `fetch_extension_metadata`
and listed in `FALLBACK_EXTENSIONS`. -/
structure ExtensionRecord where
  name : String
  repository : String
  pypi : String
  deriving Repr, DecidableEq

/-- Constant `CATALOG_API_URL` from the script. -/
def CATALOG_API_URL : String := "https://api.github.com/orgs/nwb-extensions/repos"

/-- Constant `DEFAULT_PER_PAGE` from the script. -/
def DEFAULT_PER_PAGE : Nat := 100

/-- Set `INACTIVE_EXTENSIONS` of extensions with known issues, which
`fetch_extension_metadata` skips (membership is what matters, so the Python
set literal is embedded as a list in its written order). -/
def INACTIVE_EXTENSIONS : List String :=
  [ "ndx-simulation-output"
  , "ndx-ecog"
  , "ndx-icephys-meta"
  , "ndx-nirs"
  , "ndx-extract"
  , "ndx-photometry"
  , "ndx-acquisition-module"
  , "ndx-odor-metadata"
  , "ndx-whisk"
  , "ndx-franklab-novela"
  , "ndx-photostim"
  , "ndx-ecg"
  , "ndx-multichannel-volume"
  , "ndx-depth-moseq"
  , "ndx-hed"
  , "ndx-microscopy" ]

/-- List `FALLBACK_EXTENSIONS`: the hardcoded list returned when fetching from
the catalog failed, in its declared order. -/
def FALLBACK_EXTENSIONS : List ExtensionRecord :=
  [ { name := "ndx-fret"
    , repository := "https://github.com/catalystneuro/ndx-fret"
    , pypi := "https://pypi.org/project/ndx-fret/" }
  , { name := "ndx-events"
    , repository := "https://github.com/rly/ndx-events"
    , pypi := "https://pypi.org/project/ndx-events/" }
  , { name := "ndx-sound"
    , repository := "https://github.com/catalystneuro/ndx-sound/"
    , pypi := "https://pypi.org/project/ndx-sound/" }
  , { name := "ndx-ophys-devices"
    , repository := "https://github.com/catalystneuro/ndx-ophys-devices"
    , pypi := "https://pypi.org/project/ndx-ophys-devices/" }
  , { name := "ndx-pose"
    , repository := "https://github.com/rly/ndx-pose"
    , pypi := "https://pypi.org/project/ndx-pose/" }
  , { name := "ndx-fiber-photometry"
    , repository := "https://github.com/catalystneuro/ndx-fiber-photometry"
    , pypi := "https://pypi.org/project/ndx-fiber-photometry/" } ]

/-- Function `get_github_headers`: builds the request headers from the optional
`GITHUB_TOKEN` environment value and logs one diagnostic line.  The
argument is the value `os.getenv` returns; callers account for how many
times the environment is actually read. -/
def get_github_headers (github_token : Option String) : Headers × List String :=
  match github_token with
  | some tok =>
    ( [ ("Accept", "application/vnd.github+json")
      , ("Authorization", "Bearer " ++ tok) ]
    , ["Using GitHub token for authenticated requests"] )
  | none => ([], ["No GitHub token found - using unauthenticated requests"])

/-- Response of the paginated listing endpoint for one page: either the
HTTP request (or `raise_for_status`) raises a `RequestException`, or a
JSON list of repositories is returned. -/
inductive PageResponse where
  | raises (msg : String)
  | items (repos : List RepoEntry)
  deriving Repr, DecidableEq

/-- A parsed `ndx-meta.yaml` document, keeping only the keys the script
reads; each is optional because a missing key raises `KeyError`. -/
structure MetaDoc where
  name : Option String
  src : Option String
  pip : Option String
  deriving Repr, DecidableEq

/-- Outcome of fetching and YAML-parsing one raw-content URL: the HTTP
request raises, `yaml.safe_load` raises, or a document is produced. -/
inductive MetaResponse where
  | requestError (msg : String)
  | parseError (msg : String)
  | doc (d : MetaDoc)
  deriving Repr, DecidableEq

/-- The external world of one run: the `GITHUB_TOKEN` environment value
and the responses of the two remote endpoints (constant during the run). -/
structure Env where
  github_token : Option String
  pages : Nat → PageResponse
  meta : String → MetaResponse

/-- Python `s.startswith(p)`: `p` is a prefix of the character sequence
of `s` (exact, case-sensitive). -/
def py_startswith (s p : String) : Bool := List.isPrefixOf p.data s.data

/-- Python `s.endswith(p)`: `p` is a suffix of the character sequence of
`s` (exact, case-sensitive). -/
def py_endswith (s p : String) : Bool := List.isSuffixOf p.data s.data

/-- The name filter of `get_extension_record_repos`: a repository is kept
when its name starts with "ndx-" and ends with "-record". -/
def is_record_repo (repo : RepoEntry) : Bool :=
  py_startswith repo.name "ndx-" && py_endswith repo.name "-record"

/-- Python exceptions distinguished by the handlers of
`fetch_extension_metadata`: `requests.RequestException`, `yaml.YAMLError`
and `KeyError` (the latter caught by the bare `except Exception`). -/
inductive PyExc where
  | requestException (msg : String)
  | yamlError (msg : String)
  | keyError (key : String)
  deriving Repr, DecidableEq

/-- Rendering of an exception as interpolated into the warning message. -/
def PyExc.message : PyExc → String
  | .requestException m => m
  | .yamlError m => m
  | .keyError k => "\x27" ++ k ++ "\x27"

/-- Result of the `while True` pagination loop of
`get_extension_record_repos`: out of fuel, a propagated
`RequestException`, or the filtered repositories together with the number
of page requests issued and the diagnostic log. -/
inductive ListerOut where
  | diverged
  | raised (msg : String) (log : List String)
  | listed (repos : List RepoEntry) (requests : Nat) (log : List String)
  deriving Repr, DecidableEq

/-- The `while True` loop of `get_extension_record_repos`: request one
page; on an HTTP failure print an error and re-raise; stop on an empty
page; otherwise keep the name-filtered items, stop if the page was short,
else move to the next page. -/
def repos_loop (pages : Nat → PageResponse) :
    Nat → Nat → List RepoEntry → Nat → List String → ListerOut
  | 0, _, _, _, _ => .diverged
  | fuel + 1, page, all_repos, requests, log =>
    match pages page with
    | .raises msg =>
      .raised msg
        (log ++ ["Error: Failed to fetch repos from " ++ CATALOG_API_URL ++ ": " ++ msg])
    | .items repos =>
      if repos.isEmpty then
        .listed all_repos (requests + 1) log
      else
        let record_repos := repos.filter is_record_repo
        let all_repos := all_repos ++ record_repos
        if repos.length < DEFAULT_PER_PAGE then
          .listed all_repos (requests + 1) log
        else
          repos_loop pages fuel (page + 1) all_repos (requests + 1) log

/-- Function `get_extension_record_repos`: reads the token once (via
`get_github_headers`), then paginates from page 1, and on success logs the
count of repositories found. -/
def get_extension_record_repos (env : Env) (fuel : Nat) : ListerOut :=
  let hl := get_github_headers env.github_token
  match repos_loop env.pages fuel 1 [] 0 hl.2 with
  | .diverged => .diverged
  | .raised msg log => .raised msg log
  | .listed repos requests log =>
    .listed repos requests
      (log ++ ["Found " ++ toString repos.length ++ " NWB extension record repositories"])

/-- URL of the metadata file, as built by `fetch_extension_metadata` from
the repository name and default branch. -/
def raw_url_of (repo_name default_branch : String) : String :=
  "https://raw.githubusercontent.com/nwb-extensions/" ++ repo_name ++ "/"
    ++ default_branch ++ "/ndx-meta.yaml"

/-- The `try` body of `fetch_extension_metadata`, given the response for
the metadata URL: request and parse failures raise; the three required
keys are looked up in order (a missing key raises `KeyError`); an inactive
extension is skipped with an informational log; otherwise the normalized
record is produced. -/
def fetch_try_body (resp : MetaResponse) : Except PyExc (Option ExtensionRecord × List String) :=
  match resp with
  | .requestError msg => .error (.requestException msg)
  | .parseError msg => .error (.yamlError msg)
  | .doc meta =>
    match meta.name with
    | none => .error (.keyError "name")
    | some extension_name =>
      match meta.src with
      | none => .error (.keyError "src")
      | some source_repo_url =>
        match meta.pip with
        | none => .error (.keyError "pip")
        | some pypi_url =>
          if INACTIVE_EXTENSIONS.contains extension_name then
            .ok (none, ["Skipping inactive extension \x27" ++ extension_name ++ "\x27"])
          else
            .ok (some { name := extension_name
                      , repository := source_repo_url
                      , pypi := pypi_url }, [])

/-- Function `fetch_extension_metadata`: reads `name`, `html_url` (bound to a local
that is never used afterwards, as in the source) and `default_branch`
(defaulting to "main"), builds the raw URL, runs the `try` body and
converts each raised exception into `none` plus one warning line.  The
`headers` parameter mirrors the Python signature; the oracle already
determines the response. -/
def fetch_extension_metadata (meta : String → MetaResponse) (repo : RepoEntry)
    (headers : Headers) : Except PyExc (Option ExtensionRecord × List String) :=
  let repo_name := repo.name
  let _repo_url := repo.html_url
  let default_branch := repo.default_branch.getD "main"
  let raw_url := raw_url_of repo_name default_branch
  let _ := headers
  match fetch_try_body (meta raw_url) with
  | .ok result => .ok result
  | .error (.requestException msg) =>
    .ok (none, ["Warning: Could not fetch metadata from " ++ raw_url ++ ": " ++ msg])
  | .error (.yamlError msg) =>
    .ok (none, ["Warning: Could not parse YAML from " ++ raw_url ++ ": " ++ msg])
  | .error e =>
    .ok (none, ["Warning: Unexpected error processing " ++ raw_url ++ ": " ++ e.message])

/-- The `for repo in repos` loop of `fetch_extensions_from_catalog`:
fetch each candidate in order, appending the non-`none` records; an
exception escaping `fetch_extension_metadata` would abort the loop and
propagate (which never happens, see `fetch_extension_metadata_isOk`). -/
def collect_extensions (meta : String → MetaResponse) (headers : Headers) :
    List RepoEntry → Except PyExc (List ExtensionRecord × List String)
  | [] => .ok ([], [])
  | repo :: rest =>
    match fetch_extension_metadata meta repo headers with
    | .error e => .error e
    | .ok (extension_info, l) =>
      match collect_extensions meta headers rest with
      | .error e => .error e
      | .ok (extensions, log) =>
        match extension_info with
        | some info => .ok (info :: extensions, l ++ log)
        | none => .ok (extensions, l ++ log)

/-- Result of `fetch_extensions_from_catalog`: out of fuel, a propagated
exception, or the collected records together with the number of times the
`GITHUB_TOKEN` environment variable was read during the run so far and
the diagnostic log. -/
inductive CatalogOut where
  | diverged
  | raised (e : PyExc) (log : List String)
  | fetched (extensions : List ExtensionRecord) (getenv_reads : Nat) (log : List String)
  deriving Repr, DecidableEq

/-- Function `fetch_extensions_from_catalog`: run the lister inside `try`,
converting a lister exception into the empty list; on success read the
token a second time (the second `get_github_headers` call of the run) and
fetch every candidate in order. -/
def fetch_extensions_from_catalog (env : Env) (fuel : Nat) : CatalogOut :=
  match get_extension_record_repos env fuel with
  | .diverged => .diverged
  | .raised msg log =>
    .fetched [] 1 (log ++ ["Error: Failed to fetch repository list: " ++ msg])
  | .listed repos _requests log =>
    let (headers, hlog) := get_github_headers env.github_token
    match collect_extensions env.meta headers repos with
    | .error e => .raised e (log ++ hlog)
    | .ok (extensions, flog) =>
      .fetched extensions 2
        (log ++ hlog ++ flog
          ++ ["Successfully fetched " ++ toString extensions.length ++ " extensions from catalog"])

/-- The value `generate_matrix` returns: a dictionary with the single key
`extension`. -/
structure ExtensionsMatrix where
  extension : List ExtensionRecord
  deriving Repr, DecidableEq

/-- Result of `generate_matrix`, with the same instrumentation as
`CatalogOut`. -/
inductive GenOut where
  | diverged
  | raised (e : PyExc) (log : List String)
  | built (matrix : ExtensionsMatrix) (getenv_reads : Nat) (log : List String)
  deriving Repr, DecidableEq

/-- Function `generate_matrix`: fetch from the catalog and substitute the fallback
list when the result is empty. -/
def generate_matrix (env : Env) (fuel : Nat) : GenOut :=
  match fetch_extensions_from_catalog env fuel with
  | .diverged => .diverged
  | .raised e log => .raised e log
  | .fetched extensions reads log =>
    if extensions.isEmpty then
      .built { extension := FALLBACK_EXTENSIONS } reads
        (log ++ ["Warning: Could not fetch catalog, using fallback extensions list"])
    else
      .built { extension := extensions } reads log

/-- Model of `json.dumps` on a string value.  Escaping is elided: no
string serialized by this program contains a character `json.dumps` would
escape. -/
def json_quote (s : String) : String := "\"" ++ s ++ "\""

/-- Compact serialization of one record, with the insertion key order
`name`, `repository`, `pypi` and the separators `(",", ":")`. -/
def json_record_compact (r : ExtensionRecord) : String :=
  "\x7b\"name\":" ++ json_quote r.name
    ++ ",\"repository\":" ++ json_quote r.repository
    ++ ",\"pypi\":" ++ json_quote r.pypi ++ "\x7d"

/-- Compact serialization of the matrix, as in
`json.dumps(matrix, separators=(",", ":"))`. -/
def json_matrix_compact (m : ExtensionsMatrix) : String :=
  "\x7b\"extension\":["
    ++ String.intercalate "," (m.extension.map json_record_compact) ++ "]\x7d"

/-- Serialization of one record under `json.dumps(matrix, indent=2)`,
at its nesting depth inside the matrix. -/
def json_record_indent (r : ExtensionRecord) : String :=
  "    \x7b\n      \"name\": " ++ json_quote r.name
    ++ ",\n      \"repository\": " ++ json_quote r.repository
    ++ ",\n      \"pypi\": " ++ json_quote r.pypi ++ "\n    \x7d"

/-- Pretty serialization of the matrix, as in
`json.dumps(matrix, indent=2)`. -/
def json_matrix_indent (m : ExtensionsMatrix) : String :=
  if m.extension.isEmpty then "\x7b\n  \"extension\": []\n\x7d"
  else
    "\x7b\n  \"extension\": [\n"
      ++ String.intercalate ",\n" (m.extension.map json_record_indent)
      ++ "\n  ]\n\x7d"

/-- The two values of the `--output-format` flag. -/
inductive OutputFormat where
  | github_actions
  | json
  deriving Repr, DecidableEq

/-- Observable output of one process run: the exit code, the list of
strings printed to standard output, the list printed to standard error,
and the strings appended to the `GITHUB_OUTPUT` file. -/
structure RunOut where
  exit_code : Nat
  stdout : List String
  stderr : List String
  github_output : List String
  deriving Repr, DecidableEq

/-- Function `main`: generate the matrix inside `try`; in `github-actions` mode
print the count and the `matrix=` line to standard output and append the
`matrix=` line to `GITHUB_OUTPUT` when that variable is set; in `json`
mode pretty-print to standard output.  A raised exception is caught,
logged and mapped to exit code 1.  `none` models a run that never
terminates (pagination fuel exhausted). -/
def main_run (env : Env) (output_format : OutputFormat) (github_output_set : Bool)
    (fuel : Nat) : Option RunOut :=
  match generate_matrix env fuel with
  | .diverged => none
  | .raised e log =>
    some { exit_code := 1
         , stdout := []
         , stderr := log ++ ["Error: Failed to generate extensions matrix: " ++ e.message]
         , github_output := [] }
  | .built matrix _reads log =>
    match output_format with
    | .github_actions =>
      let matrix_json := json_matrix_compact matrix
      some { exit_code := 0
           , stdout :=
               [ "Generated matrix with " ++ toString matrix.extension.length ++ " extensions"
               , "matrix=" ++ matrix_json ]
           , stderr := log
           , github_output :=
               if github_output_set then ["matrix=" ++ matrix_json ++ "\n"] else [] }
    | .json =>
      some { exit_code := 0
           , stdout := [json_matrix_indent matrix]
           , stderr := log
           , github_output := [] }

/-- An environment in which every network call fails: no token, every
page request raises, every metadata fetch fails. -/
def env_offline : Env :=
  { github_token := none
  , pages := fun _ => .raises "offline"
  , meta := fun _ => .requestError "offline" }

/-- An environment in which the listing succeeds with a single empty
page, so the run completes with zero candidates. -/
def env_empty_catalog : Env :=
  { github_token := none
  , pages := fun _ => .items []
  , meta := fun _ => .requestError "offline" }

/-- The standard-error log of a full `generate_matrix` run under
`env_offline`. -/
def offline_log : List String :=
  [ "No GitHub token found - using unauthenticated requests"
  , "Error: Failed to fetch repos from https://api.github.com/orgs/nwb-extensions/repos: offline"
  , "Error: Failed to fetch repository list: offline"
  , "Warning: Could not fetch catalog, using fallback extensions list" ]

/-- A full page (exactly `DEFAULT_PER_PAGE` items) used to exercise the
pagination loop. -/
def full_page_demo : List RepoEntry :=
  List.replicate 100 { name := "ndx-x-record", html_url := "", default_branch := none }

/-- A short final page with one matching and one non-matching item. -/
def last_page_demo : List RepoEntry :=
  [ { name := "ndx-y-record", html_url := "", default_branch := none }
  , { name := "other", html_url := "", default_branch := none } ]

/-- An environment whose listing endpoint serves one full page and then a
short page; metadata fetches fail. -/
def env_paged : Env :=
  { github_token := none
  , pages := fun page => if page = 1 then .items full_page_demo else .items last_page_demo
  , meta := fun _ => .requestError "offline" }

/-- A metadata oracle for three candidate repositories: the first and
third have well-formed, non-excluded documents; the fetch of the second
raises. -/
def meta_three : String → MetaResponse := fun url =>
  if url = raw_url_of "ndx-b-record" "main" then .requestError "down"
  else if url = raw_url_of "ndx-a-record" "main" then
    .doc { name := some "ndx-a"
         , src := some "https://github.com/x/ndx-a"
         , pip := some "https://pypi.org/project/ndx-a/" }
  else
    .doc { name := some "ndx-c"
         , src := some "https://github.com/x/ndx-c"
         , pip := some "https://pypi.org/project/ndx-c/" }

/-! ### Helper lemmas -/

/-- Every run of `fetch_extension_metadata` returns `Except.ok`: each of
the three handlers converts its exception into a `none` result. -/
theorem fetch_extension_metadata_isOk (meta : String → MetaResponse) (repo : RepoEntry)
    (headers : Headers) : ∃ out, fetch_extension_metadata meta repo headers = .ok out := by
  simp only [fetch_extension_metadata]
  cases h : fetch_try_body (meta (raw_url_of repo.name (repo.default_branch.getD "main"))) with
  | ok v => exact ⟨v, rfl⟩
  | error e => cases e <;> exact ⟨_, rfl⟩

/-- When the `try` body raises, `fetch_extension_metadata` returns `none`
together with exactly one warning line. -/
theorem fetch_extension_metadata_of_error (meta : String → MetaResponse) (repo : RepoEntry)
    (headers : Headers) (e : PyExc)
    (h : fetch_try_body (meta (raw_url_of repo.name (repo.default_branch.getD "main"))) = .error e) :
    ∃ msg, fetch_extension_metadata meta repo headers = .ok (none, [msg]) := by
  simp only [fetch_extension_metadata, h]
  cases e <;> exact ⟨_, rfl⟩

/-- Inversion for a successful `try` body: a record is produced exactly
from a parsed document carrying its three fields, with a name outside the
inactive set. -/
theorem fetch_try_body_some (resp : MetaResponse) (r : ExtensionRecord) (l : List String)
    (h : fetch_try_body resp = .ok (some r, l)) :
    INACTIVE_EXTENSIONS.contains r.name = false ∧
      resp = .doc { name := some r.name, src := some r.repository, pip := some r.pypi } ∧
      l = [] := by
  cases resp with
  | requestError m => simp [fetch_try_body] at h
  | parseError m => simp [fetch_try_body] at h
  | doc d =>
    obtain ⟨n, s, p⟩ := d
    cases n with
    | none => simp [fetch_try_body] at h
    | some n =>
      cases s with
      | none => simp [fetch_try_body] at h
      | some s =>
        cases p with
        | none => simp [fetch_try_body] at h
        | some p =>
          by_cases hc : n ∈ INACTIVE_EXTENSIONS
          · simp [fetch_try_body, hc] at h
          · simp only [fetch_try_body] at h
            rw [if_neg (by simpa using hc)] at h
            simp only [Except.ok.injEq, Prod.mk.injEq, Option.some.injEq] at h
            obtain ⟨hr, hl⟩ := h
            subst hr
            subst hl
            refine ⟨by simpa using hc, rfl, rfl⟩

/-- Inversion for a successful `fetch_extension_metadata`: the produced
record comes from a parsed, non-excluded document at the URL built from
the repository name and default branch. -/
theorem fetch_extension_metadata_some (meta : String → MetaResponse) (repo : RepoEntry)
    (headers : Headers) (r : ExtensionRecord) (l : List String)
    (h : fetch_extension_metadata meta repo headers = .ok (some r, l)) :
    INACTIVE_EXTENSIONS.contains r.name = false ∧
      meta (raw_url_of repo.name (repo.default_branch.getD "main")) =
        .doc { name := some r.name, src := some r.repository, pip := some r.pypi } := by
  simp only [fetch_extension_metadata] at h
  cases hb : fetch_try_body (meta (raw_url_of repo.name (repo.default_branch.getD "main"))) with
  | ok v =>
    rw [hb] at h
    simp only [Except.ok.injEq] at h
    subst h
    obtain ⟨h1, h2, h3⟩ := fetch_try_body_some _ r l hb
    exact ⟨h1, h2⟩
  | error e =>
    rw [hb] at h
    cases e <;> simp at h

/-- The per-candidate loop never propagates an exception. -/
theorem collect_extensions_isOk (meta : String → MetaResponse) (headers : Headers) :
    ∀ repos : List RepoEntry, ∃ out, collect_extensions meta headers repos = .ok out := by
  intro repos
  induction repos with
  | nil => exact ⟨([], []), rfl⟩
  | cons repo rest ih =>
    obtain ⟨⟨info, l⟩, hout⟩ := fetch_extension_metadata_isOk meta repo headers
    obtain ⟨⟨exts, log⟩, hrest⟩ := ih
    cases info with
    | some i => exact ⟨(i :: exts, l ++ log), by simp only [collect_extensions, hout, hrest]⟩
    | none => exact ⟨(exts, l ++ log), by simp only [collect_extensions, hout, hrest]⟩

/-- Every record collected by the per-candidate loop was returned by
`fetch_extension_metadata` for some candidate of the list. -/
theorem collect_extensions_mem (meta : String → MetaResponse) (headers : Headers) :
    ∀ (repos : List RepoEntry) (exts : List ExtensionRecord) (log : List String),
      collect_extensions meta headers repos = .ok (exts, log) →
      ∀ r ∈ exts, ∃ repo, repo ∈ repos ∧
        ∃ l, fetch_extension_metadata meta repo headers = .ok (some r, l) := by
  intro repos
  induction repos with
  | nil =>
    intro exts log h r hr
    simp only [collect_extensions, Except.ok.injEq, Prod.mk.injEq] at h
    obtain ⟨h1, h2⟩ := h
    subst h1
    simp at hr
  | cons repo rest ih =>
    intro exts log h r hr
    cases hf : fetch_extension_metadata meta repo headers with
    | error e =>
      simp only [collect_extensions, hf] at h
      exact Except.noConfusion h
    | ok pair =>
      obtain ⟨info, l⟩ := pair
      cases hc : collect_extensions meta headers rest with
      | error e =>
        simp only [collect_extensions, hf, hc] at h
        exact Except.noConfusion h
      | ok pair2 =>
        obtain ⟨exts', log'⟩ := pair2
        cases info with
        | some i =>
          simp only [collect_extensions, hf, hc, Except.ok.injEq, Prod.mk.injEq] at h
          obtain ⟨h1, h2⟩ := h
          subst h1
          rcases List.mem_cons.mp hr with rfl | hr'
          · exact ⟨repo, List.mem_cons_self repo rest, l, hf⟩
          · obtain ⟨repo', hmem, l', hfetch⟩ := ih exts' log' hc r hr'
            exact ⟨repo', List.mem_cons_of_mem repo hmem, l', hfetch⟩
        | none =>
          simp only [collect_extensions, hf, hc, Except.ok.injEq, Prod.mk.injEq] at h
          obtain ⟨h1, h2⟩ := h
          subst h1
          obtain ⟨repo', hmem, l', hfetch⟩ := ih exts' log' hc r hr
          exact ⟨repo', List.mem_cons_of_mem repo hmem, l', hfetch⟩

/-! ### Claims -/

/-- C2: For every catalog entry (holding name, html_url and
default_branch), `fetch_extension_metadata` never raises to its caller:
the result is always `Except.ok`, and whenever the body raises (transport
failure, parse failure or missing required key) the result is `none`
together with one diagnostic message. -/
theorem fetch_extension_metadata_never_raises (meta : String → MetaResponse)
    (repo : RepoEntry) (headers : Headers) :
    (∃ out, fetch_extension_metadata meta repo headers = .ok out) ∧
      ∀ e, fetch_try_body (meta (raw_url_of repo.name (repo.default_branch.getD "main"))) =
          .error e →
        ∃ msg, fetch_extension_metadata meta repo headers = .ok (none, [msg]) :=
  ⟨fetch_extension_metadata_isOk meta repo headers,
   fun e h => fetch_extension_metadata_of_error meta repo headers e h⟩

/-- Witness for C2: a concrete entry whose metadata fetch raises a
transport error. -/
theorem fetch_extension_metadata_never_raises_inst :
    (∃ out, fetch_extension_metadata (fun _ => .requestError "down")
        { name := "ndx-a-record", html_url := "u", default_branch := none } [] = .ok out) ∧
      ∀ e, fetch_try_body ((fun _ => MetaResponse.requestError "down")
              (raw_url_of "ndx-a-record" "main")) = .error e →
        ∃ msg, fetch_extension_metadata (fun _ => .requestError "down")
            { name := "ndx-a-record", html_url := "u", default_branch := none } []
          = .ok (none, [msg]) :=
  fetch_extension_metadata_never_raises (fun _ => .requestError "down")
    { name := "ndx-a-record", html_url := "u", default_branch := none } []

/-- C8: The repository-name filter is exact and case-sensitive: a name
matches exactly when it starts with "ndx-" and ends with "-record";
"ndx-foo-record" matches while "NDX-foo-record", "ndx-foo-records" and
"foo-record" do not. -/
theorem name_filter_exact (repo : RepoEntry) :
    (is_record_repo repo = true ↔
        "ndx-".data <+: repo.name.data ∧ "-record".data <:+ repo.name.data) ∧
      is_record_repo { name := "ndx-foo-record", html_url := "", default_branch := none } = true ∧
      is_record_repo { name := "NDX-foo-record", html_url := "", default_branch := none } = false ∧
      is_record_repo { name := "ndx-foo-records", html_url := "", default_branch := none } = false ∧
      is_record_repo { name := "foo-record", html_url := "", default_branch := none } = false := by
  refine ⟨?_, by decide, by decide, by decide, by decide⟩
  simp [is_record_repo, py_startswith, py_endswith, Bool.and_eq_true,
    List.isPrefixOf_iff_prefix, List.isSuffixOf_iff_suffix]

/-- Witness for C8 at a concrete entry. -/
theorem name_filter_exact_inst :
    (is_record_repo { name := "ndx-foo-record", html_url := "", default_branch := none } = true ↔
        "ndx-".data <+: "ndx-foo-record".data ∧ "-record".data <:+ "ndx-foo-record".data) ∧
      is_record_repo { name := "ndx-foo-record", html_url := "", default_branch := none } = true ∧
      is_record_repo { name := "NDX-foo-record", html_url := "", default_branch := none } = false ∧
      is_record_repo { name := "ndx-foo-records", html_url := "", default_branch := none } = false ∧
      is_record_repo { name := "foo-record", html_url := "", default_branch := none } = false :=
  name_filter_exact { name := "ndx-foo-record", html_url := "", default_branch := none }

/-- C9: The extension sequence of every built matrix is non-empty: when
live discovery yields zero usable records the non-empty fallback list is
substituted. -/
theorem generate_matrix_nonempty (env : Env) (fuel : Nat) (m : ExtensionsMatrix)
    (reads : Nat) (log : List String)
    (h : generate_matrix env fuel = .built m reads log) : m.extension ≠ [] := by
  unfold generate_matrix at h
  cases hc : fetch_extensions_from_catalog env fuel with
  | diverged => rw [hc] at h; exact GenOut.noConfusion h
  | raised e log' => rw [hc] at h; exact GenOut.noConfusion h
  | fetched exts reads' log' =>
    rw [hc] at h
    by_cases he : exts.isEmpty
    · simp only [he, if_true] at h
      obtain ⟨h1, h2, h3⟩ := GenOut.built.inj h
      subst h1
      simp [FALLBACK_EXTENSIONS]
    · simp only [he, if_false] at h
      obtain ⟨h1, h2, h3⟩ := GenOut.built.inj h
      subst h1
      simpa using he

/-- Witness for C9 at a run that falls back. -/
theorem generate_matrix_nonempty_inst :
    ExtensionsMatrix.extension { extension := FALLBACK_EXTENSIONS } ≠ [] :=
  generate_matrix_nonempty env_offline 10 { extension := FALLBACK_EXTENSIONS } 1
    offline_log (by rfl)

/-- C10: The result of `fetch_extension_metadata` does not depend on the
html_url field: two entries equal except for html_url give identical
results under the same remote responses. -/
theorem fetch_metadata_ignores_html_url (meta : String → MetaResponse) (headers : Headers)
    (r1 r2 : RepoEntry) (hname : r1.name = r2.name)
    (hbranch : r1.default_branch = r2.default_branch) :
    fetch_extension_metadata meta r1 headers = fetch_extension_metadata meta r2 headers := by
  simp only [fetch_extension_metadata, hname, hbranch]

/-- Witness for C10: two entries differing only in html_url. -/
theorem fetch_metadata_ignores_html_url_inst :
    fetch_extension_metadata (fun _ => .requestError "down")
        { name := "ndx-a-record", html_url := "https://example.org/x", default_branch := none } [] =
      fetch_extension_metadata (fun _ => .requestError "down")
        { name := "ndx-a-record", html_url := "https://example.org/y", default_branch := none } [] :=
  fetch_metadata_ignores_html_url (fun _ => .requestError "down") []
    { name := "ndx-a-record", html_url := "https://example.org/x", default_branch := none }
    { name := "ndx-a-record", html_url := "https://example.org/y", default_branch := none }
    (by rfl) (by rfl)

/-- C4: If the repository listing raises, the Builder catches the
exception (the catalog fetch returns normally with zero candidates) and
the final matrix is the fallback list verbatim, all 6 records in their
declared order. -/
theorem lister_failure_yields_fallback (env : Env) (fuel : Nat) (msg : String)
    (log : List String)
    (h : get_extension_record_repos env fuel = .raised msg log) :
    fetch_extensions_from_catalog env fuel =
        .fetched [] 1 (log ++ ["Error: Failed to fetch repository list: " ++ msg]) ∧
      generate_matrix env fuel =
        .built { extension := FALLBACK_EXTENSIONS } 1
          (log ++ ["Error: Failed to fetch repository list: " ++ msg]
            ++ ["Warning: Could not fetch catalog, using fallback extensions list"]) ∧
      FALLBACK_EXTENSIONS.length = 6 := by
  have h1 : fetch_extensions_from_catalog env fuel =
      .fetched [] 1 (log ++ ["Error: Failed to fetch repository list: " ++ msg]) := by
    unfold fetch_extensions_from_catalog
    rw [h]
  refine ⟨h1, ?_, by decide⟩
  unfold generate_matrix
  rw [h1]
  rfl

/-- Witness for C4 at an offline environment. -/
theorem lister_failure_yields_fallback_inst :
    fetch_extensions_from_catalog env_offline 10 =
        .fetched [] 1
          (offline_log.take 2 ++ ["Error: Failed to fetch repository list: offline"]) ∧
      generate_matrix env_offline 10 =
        .built { extension := FALLBACK_EXTENSIONS } 1
          (offline_log.take 2 ++ ["Error: Failed to fetch repository list: offline"]
            ++ ["Warning: Could not fetch catalog, using fallback extensions list"]) ∧
      FALLBACK_EXTENSIONS.length = 6 :=
  lister_failure_yields_fallback env_offline 10 "offline" (offline_log.take 2) (by rfl)

/-- C6: In a sequence of three candidates where the second fetch raises
and the first and third succeed with well-formed non-excluded metadata,
the per-candidate loop yields exactly the first and third records, in
order. -/
theorem second_candidate_failure_isolated (meta : String → MetaResponse) (headers : Headers)
    (r1 r2 r3 : RepoEntry) (e1 e3 : ExtensionRecord) (l1 l3 : List String) (exc : PyExc)
    (h1 : fetch_extension_metadata meta r1 headers = .ok (some e1, l1))
    (h2 : fetch_try_body (meta (raw_url_of r2.name (r2.default_branch.getD "main"))) =
      .error exc)
    (h3 : fetch_extension_metadata meta r3 headers = .ok (some e3, l3)) :
    ∃ log, collect_extensions meta headers [r1, r2, r3] = .ok ([e1, e3], log) := by
  obtain ⟨msg, h2m⟩ := fetch_extension_metadata_of_error meta r2 headers exc h2
  refine ⟨l1 ++ ([msg] ++ (l3 ++ [])), ?_⟩
  simp only [collect_extensions, h1, h2m, h3]

/-- Witness for C6 with a concrete three-candidate oracle. -/
theorem second_candidate_failure_isolated_inst :
    ∃ log, collect_extensions meta_three []
        [ { name := "ndx-a-record", html_url := "", default_branch := none }
        , { name := "ndx-b-record", html_url := "", default_branch := none }
        , { name := "ndx-c-record", html_url := "", default_branch := none } ] =
      .ok ( [ { name := "ndx-a", repository := "https://github.com/x/ndx-a"
              , pypi := "https://pypi.org/project/ndx-a/" }
            , { name := "ndx-c", repository := "https://github.com/x/ndx-c"
              , pypi := "https://pypi.org/project/ndx-c/" } ], log) :=
  second_candidate_failure_isolated meta_three []
    { name := "ndx-a-record", html_url := "", default_branch := none }
    { name := "ndx-b-record", html_url := "", default_branch := none }
    { name := "ndx-c-record", html_url := "", default_branch := none }
    { name := "ndx-a", repository := "https://github.com/x/ndx-a"
    , pypi := "https://pypi.org/project/ndx-a/" }
    { name := "ndx-c", repository := "https://github.com/x/ndx-c"
    , pypi := "https://pypi.org/project/ndx-c/" }
    [] [] (.requestException "down") (by rfl) (by rfl) (by rfl)

/-- C7 counterexample: a successful run reads the GITHUB_TOKEN
environment variable twice, not exactly once. -/
theorem token_read_twice :
    (∃ log, fetch_extensions_from_catalog env_empty_catalog 10 = .fetched [] 2 log) ∧
      (2 : Nat) ≠ 1 :=
  ⟨⟨_, rfl⟩, by decide⟩

/-- C7 (amended): the token is read from the environment once per phase —
a second time before the metadata fetches when the lister returned, and
only the lister's read when it raised — so a successful run performs two
reads of the same, unchanging environment value. -/
theorem token_reads_per_phase (env : Env) (fuel : Nat) :
    (∀ repos requests log,
        get_extension_record_repos env fuel = .listed repos requests log →
        ∃ extensions flog,
          fetch_extensions_from_catalog env fuel = .fetched extensions 2 flog) ∧
      ∀ msg log, get_extension_record_repos env fuel = .raised msg log →
        ∃ flog, fetch_extensions_from_catalog env fuel = .fetched [] 1 flog := by
  constructor
  · intro repos requests log h
    unfold fetch_extensions_from_catalog
    rw [h]
    rcases hg : get_github_headers env.github_token with ⟨headers, hlog⟩
    obtain ⟨⟨exts, flog⟩, hcol⟩ := collect_extensions_isOk env.meta headers repos
    simp only [hcol]
    exact ⟨exts, _, rfl⟩
  · intro msg log h
    unfold fetch_extensions_from_catalog
    rw [h]
    exact ⟨_, rfl⟩

/-- Witness for the amended C7 at a run whose listing returns one empty
page. -/
theorem token_reads_per_phase_inst :
    ∃ extensions flog,
      fetch_extensions_from_catalog env_empty_catalog 10 = .fetched extensions 2 flog :=
  (token_reads_per_phase env_empty_catalog 10).1 [] 1
    [ "No GitHub token found - using unauthenticated requests"
    , "Found 0 NWB extension record repositories" ] (by rfl)

/-- C3 counterexample: in github-actions mode the human-readable count
line is printed to standard output, not to standard error. -/
theorem count_line_on_stdout_not_stderr :
    ∃ r, main_run env_offline .github_actions true 10 = some r ∧
      "Generated matrix with 6 extensions" ∈ r.stdout ∧
      "Generated matrix with 6 extensions" ∉ r.stderr := by
  refine ⟨_, rfl, ?_, ?_⟩ <;> decide

/-- C3 (amended): in github-actions mode the count line and the matrix
line go to standard output, standard error carries exactly the
accumulated diagnostics, and the CI output sink receives only the single
machine-parseable `matrix=` line (when the sink variable is set). -/
theorem github_actions_output_channels (env : Env) (fuel : Nat) (ghset : Bool)
    (m : ExtensionsMatrix) (reads : Nat) (log : List String)
    (h : generate_matrix env fuel = .built m reads log) :
    main_run env .github_actions ghset fuel = some
      { exit_code := 0
      , stdout :=
          [ "Generated matrix with " ++ toString m.extension.length ++ " extensions"
          , "matrix=" ++ json_matrix_compact m ]
      , stderr := log
      , github_output :=
          if ghset then ["matrix=" ++ json_matrix_compact m ++ "\n"] else [] } := by
  unfold main_run
  rw [h]

/-- Witness for the amended C3 at an offline run. -/
theorem github_actions_output_channels_inst :
    main_run env_offline .github_actions true 10 = some
      { exit_code := 0
      , stdout :=
          [ "Generated matrix with 6 extensions"
          , "matrix=" ++ json_matrix_compact { extension := FALLBACK_EXTENSIONS } ]
      , stderr := offline_log
      , github_output :=
          ["matrix=" ++ json_matrix_compact { extension := FALLBACK_EXTENSIONS } ++ "\n"] } :=
  github_actions_output_channels env_offline 10 true { extension := FALLBACK_EXTENSIONS } 1
    offline_log (by rfl)

/-- C1: Every built matrix is either exactly the fallback list or
consists only of records returned by `fetch_extension_metadata` from
successfully parsed documents whose name is absent from the exclusion
set; live and fallback records are never mixed. -/
theorem generate_matrix_fallback_or_live (env : Env) (fuel : Nat) (m : ExtensionsMatrix)
    (reads : Nat) (log : List String)
    (h : generate_matrix env fuel = .built m reads log) :
    m.extension = FALLBACK_EXTENSIONS ∨
      ∀ r ∈ m.extension, ∃ repo l,
        fetch_extension_metadata env.meta repo (get_github_headers env.github_token).1 =
            .ok (some r, l) ∧
          env.meta (raw_url_of repo.name (repo.default_branch.getD "main")) =
            .doc { name := some r.name, src := some r.repository, pip := some r.pypi } ∧
          INACTIVE_EXTENSIONS.contains r.name = false := by
  unfold generate_matrix at h
  cases hc : fetch_extensions_from_catalog env fuel with
  | diverged => rw [hc] at h; exact GenOut.noConfusion h
  | raised e log' => rw [hc] at h; exact GenOut.noConfusion h
  | fetched exts reads' log' =>
    rw [hc] at h
    by_cases he : exts.isEmpty
    · simp only [he, if_true] at h
      obtain ⟨h1, h2, h3⟩ := GenOut.built.inj h
      subst h1
      exact Or.inl rfl
    · simp only [he, if_false] at h
      obtain ⟨h1, h2, h3⟩ := GenOut.built.inj h
      subst h1
      refine Or.inr ?_
      unfold fetch_extensions_from_catalog at hc
      cases hl : get_extension_record_repos env fuel with
      | diverged => rw [hl] at hc; exact CatalogOut.noConfusion hc
      | raised msg log0 =>
        rw [hl] at hc
        obtain ⟨he1, he2, he3⟩ := CatalogOut.fetched.inj hc
        subst he1
        simp at he
      | listed repos reqs log0 =>
        rw [hl] at hc
        cases hcol : collect_extensions env.meta (get_github_headers env.github_token).1 repos with
        | error e =>
          simp only [hcol] at hc
          exact CatalogOut.noConfusion hc
        | ok pair =>
          obtain ⟨exts0, flog⟩ := pair
          simp only [hcol] at hc
          obtain ⟨he1, he2, he3⟩ := CatalogOut.fetched.inj hc
          subst he1
          intro r hr
          obtain ⟨repo, hmem, l, hfetch⟩ :=
            collect_extensions_mem env.meta (get_github_headers env.github_token).1 repos
              exts0 flog hcol r hr
          obtain ⟨hna, hdoc⟩ :=
            fetch_extension_metadata_some env.meta repo
              (get_github_headers env.github_token).1 r l hfetch
          exact ⟨repo, l, hfetch, hdoc, hna⟩

/-- Witness for C1 at a run that falls back. -/
theorem generate_matrix_fallback_or_live_inst :
    ExtensionsMatrix.extension { extension := FALLBACK_EXTENSIONS } = FALLBACK_EXTENSIONS ∨
      ∀ r ∈ ExtensionsMatrix.extension { extension := FALLBACK_EXTENSIONS }, ∃ repo l,
        fetch_extension_metadata env_offline.meta repo
            (get_github_headers env_offline.github_token).1 = .ok (some r, l) ∧
          env_offline.meta (raw_url_of repo.name (repo.default_branch.getD "main")) =
            .doc { name := some r.name, src := some r.repository, pip := some r.pypi } ∧
          INACTIVE_EXTENSIONS.contains r.name = false :=
  generate_matrix_fallback_or_live env_offline 10 { extension := FALLBACK_EXTENSIONS } 1
    offline_log (by rfl)

/-- Behaviour of the pagination loop on a listing endpoint that serves
the pages of `full` (each exactly `DEFAULT_PER_PAGE` long) and then the
short page `lastPage`: one request per page, accumulating the
name-filtered items of every page in order. -/
theorem repos_loop_pages (pages : Nat → PageResponse) (lastPage : List RepoEntry)
    (hshort : lastPage.length < DEFAULT_PER_PAGE) :
    ∀ (full : List (List RepoEntry)) (page : Nat) (acc : List RepoEntry)
      (requests : Nat) (log : List String) (fuel : Nat),
      (∀ l ∈ full, l.length = DEFAULT_PER_PAGE) →
      (∀ j, j < full.length + 1 → pages (page + j) = .items ((full ++ [lastPage]).getD j [])) →
      full.length + 1 ≤ fuel →
      repos_loop pages fuel page acc requests log =
        .listed (acc ++ ((full ++ [lastPage]).map fun p => p.filter is_record_repo).flatten)
          (requests + (full.length + 1)) log := by
  intro full
  induction full with
  | nil =>
    intro page acc requests log fuel hfull hpages hfuel
    cases fuel with
    | zero => exact absurd hfuel (by omega)
    | succ f =>
      have hp : pages page = .items lastPage := by
        have h0 := hpages 0 (by omega)
        simpa using h0
      by_cases hemp : lastPage.isEmpty
      · have hnil : lastPage = [] := by simpa using hemp
        subst hnil
        simp [repos_loop, hp]
      · simp only [repos_loop, hp, hemp, Bool.false_eq_true, if_false]
        rw [if_pos hshort]
        simp
  | cons p full' ih =>
    intro page acc requests log fuel hfull hpages hfuel
    simp only [List.length_cons] at hfuel
    cases fuel with
    | zero => exact absurd hfuel (by omega)
    | succ f =>
      have hp : pages page = .items p := by
        have h0 := hpages 0 (by simp)
        simpa using h0
      have hplen : p.length = DEFAULT_PER_PAGE := hfull p (List.mem_cons_self p full')
      have hpne : ¬ p.isEmpty = true := by
        cases p with
        | nil => simp [DEFAULT_PER_PAGE] at hplen
        | cons a t => simp
      have hfull' : ∀ l ∈ full', l.length = DEFAULT_PER_PAGE :=
        fun l hl => hfull l (List.mem_cons_of_mem p hl)
      have hpages' : ∀ j, j < full'.length + 1 →
          pages (page + 1 + j) = .items ((full' ++ [lastPage]).getD j []) := by
        intro j hj
        have hj1 := hpages (j + 1) (by simp; omega)
        have harith : page + (j + 1) = page + 1 + j := by omega
        rw [harith] at hj1
        simpa using hj1
      have hfuel' : full'.length + 1 ≤ f := by omega
      have hrec := ih (page + 1) (acc ++ p.filter is_record_repo) (requests + 1) log f
        hfull' hpages' hfuel'
      simp only [repos_loop, hp]
      rw [if_neg hpne, if_neg (by rw [hplen]; exact lt_irrefl _)]
      rw [hrec]
      congr 1
      · simp [List.append_assoc]
      · simp only [List.length_cons]
        omega

/-- C5: When the listing endpoint returns `full.length` consecutive full
pages followed by one short or empty page, `get_extension_record_repos`
issues exactly `full.length + 1` page requests and returns the
name-filter-matching items of all pages, in page order then per-page
order. -/
theorem pagination_requests_and_union (env : Env)
    (full : List (List RepoEntry)) (lastPage : List RepoEntry) (fuel : Nat)
    (hfull : ∀ l ∈ full, l.length = DEFAULT_PER_PAGE)
    (hshort : lastPage.length < DEFAULT_PER_PAGE)
    (hpages : ∀ j, j < full.length + 1 →
      env.pages (1 + j) = .items ((full ++ [lastPage]).getD j []))
    (hfuel : full.length + 1 ≤ fuel) :
    ∃ log, get_extension_record_repos env fuel =
      .listed (((full ++ [lastPage]).map fun p => p.filter is_record_repo).flatten)
        (full.length + 1) log := by
  simp only [get_extension_record_repos]
  rw [repos_loop_pages env.pages lastPage hshort full 1 [] 0
    (get_github_headers env.github_token).2 fuel hfull hpages hfuel]
  simp only [List.nil_append, Nat.zero_add]
  exact ⟨_, rfl⟩

/-- Witness for C5: one full page of 100 items followed by a short page
of two items, issuing exactly two requests. -/
theorem pagination_requests_and_union_inst :
    ∃ log, get_extension_record_repos env_paged 10 =
      .listed ((([full_page_demo] ++ [last_page_demo]).map
          fun p => p.filter is_record_repo).flatten)
        ([full_page_demo].length + 1) log :=
  pagination_requests_and_union env_paged [full_page_demo] last_page_demo 10
    (by decide) (by decide) (by decide) (by decide)
